import Mathlib

/-!
Shallow embedding of the timeline layout / link-rendering engine of
`src/App.tsx` (REDZONE-history).  JavaScript numbers are modelled as
exact rationals (`ℚ`); calendar dates are modelled by the millisecond
timestamp that `new Date(dateStr).getTime()` produces for a
`YYYY-MM-DD` string (an integer number of milliseconds since the Unix
epoch, UTC midnight).
-/

namespace RedZone

/-- Constant `START_DATE = new Date("2009-01-01").getTime()` — milliseconds since
the Unix epoch for 2009-01-01T00:00:00Z. -/
def START_DATE : ℤ := 1230768000000

/-- Milliseconds per day, the divisor `1000 * 60 * 60 * 24` used in
`getDateY`. -/
def msPerDay : ℚ := 86400000

/-- Constant `HEADER_HEIGHT = 60`. -/
def HEADER_HEIGHT : ℚ := 60

/-- Function `getDateY` from `App.tsx`:
`Math.max(0, daysSinceStart * zoom) + HEADER_HEIGHT` where
`daysSinceStart = (date - START_DATE) / (1000*60*60*24)`.  The date
argument is the parsed millisecond timestamp. -/
def getDateY (dateMs : ℤ) (zoom : ℚ) : ℚ :=
  let daysSinceStart : ℚ := ((dateMs : ℚ) - (START_DATE : ℚ)) / msPerDay
  max 0 (daysSinceStart * zoom) + HEADER_HEIGHT

/-- Function `getX` from `ConnectionLayer`: returns the sentinel `0` when the
container width is still unmeasured, otherwise
`(availableWidth * (xOffset / 100)) + (cardWidth / 2)` with
`availableWidth = width - cardWidth`. -/
def getX (width cardWidth xOffset : ℚ) : ℚ :=
  if width = 0 then 0
  else
    let availableWidth := width - cardWidth
    availableWidth * (xOffset / 100) + cardWidth / 2

/-- The per-card injected style of `DraggableEventCard`:
`left: calc((100% - cardWidthPx) * (currentX / 100))`, evaluated at a
concrete container width. -/
def cardLeft (containerWidth cardWidth currentX : ℚ) : ℚ :=
  (containerWidth - cardWidth) * (currentX / 100)

/-- Drag-session state held by `DraggableEventCard`: `startXRef`,
`startOffsetRef`, `colWidthRef` and the displayed `currentX`. -/
structure DragState where
  startX : ℚ
  startOffset : ℚ
  colWidth : ℚ
  currentX : ℚ
deriving DecidableEq, Repr

/-- Handler `handleStart` (the part executed once `isLocked` is false): records
the pointer position and current offset and measures the travel
distance `parentWidth - cardWidth` once. -/
def handleStart (xOffset clientX parentWidth cardWidth : ℚ) : DragState :=
  { startX := clientX
    startOffset := xOffset
    colWidth := parentWidth - cardWidth
    currentX := xOffset }

/-- Handler `handleMove` from the drag effect: a no-op when
`colWidthRef.current <= 0`, otherwise sets
`currentX := Math.min(100, Math.max(0, startOffset + deltaPercent))`
with `deltaPercent = (clientX - startX) / colWidth * 100`. -/
def handleMove (s : DragState) (clientX : ℚ) : DragState :=
  if s.colWidth ≤ 0 then s
  else
    let deltaXPixels := clientX - s.startX
    let deltaPercent := deltaXPixels / s.colWidth * 100
    { s with currentX := min 100 (max 0 (s.startOffset + deltaPercent)) }

/-- Handler `handleDragEnd` from `App`: clamps the committed offset with
`Math.max(0, Math.min(100, newXOffset))`. -/
def handleDragEnd (newXOffset : ℚ) : ℚ :=
  max 0 (min 100 newXOffset)

/-- A whole drag session: start, a sequence of pointer moves, then the
release commit through `handleDragEnd`. -/
def dragSession (xOffset clientX parentWidth cardWidth : ℚ)
    (moves : List ℚ) : ℚ :=
  handleDragEnd (List.foldl handleMove
    (handleStart xOffset clientX parentWidth cardWidth) moves).currentX

/-- Type `Category` from `App.tsx`. -/
inductive Category where
  | technique
  | author
  | other
deriving DecidableEq, Repr

/-- Type `LinkData` from `App.tsx`. -/
structure LinkData where
  targetId : String
  color : String
deriving DecidableEq, Repr

/-- Type `EventData` from `App.tsx` (the in-memory event).  The `date`
field holds the millisecond timestamp that parsing the stored
`YYYY-MM-DD` string yields, since every use of the date in the layout
engine goes through `new Date(dateStr).getTime()`. -/
structure EventData where
  id : String
  title : String
  description : String
  date : ℤ
  category : Category
  url : Option String
  links : List LinkData
  xOffset : ℚ
  borderColor : Option String
deriving DecidableEq, Repr

/-- Predicate `isVisible` from `ConnectionLayer`:
`visibleEvents.some(e => e.id === id)`. -/
def isVisible (visibleEvents : List EventData) (id : String) : Bool :=
  visibleEvents.any (fun e => e.id == id)

/-- The JavaScript `cardHeights[event.id] || 50` fallback: an absent
height — and also a falsy measured height of 0 — is replaced by 50. -/
def jsOrFifty (v : Option ℚ) : ℚ :=
  match v with
  | some h => if h = 0 then 50 else h
  | none => 50

/-- A cubic Bézier connector as emitted in the path string
`M x1 y1 C x1 cp1y, x2 cp2y, x2 y2`. -/
structure Bezier where
  p0 : ℚ × ℚ
  p1 : ℚ × ℚ
  p2 : ℚ × ℚ
  p3 : ℚ × ℚ
deriving DecidableEq, Repr

/-- The per-link body of `ConnectionLayer`'s render loop: skip the
link when the target is not visible, not found in the document, or the
container width is the unmeasured sentinel 0; otherwise emit the cubic
Bézier with `y1 = getDateY(source) + sourceHeight`,
`y2 = getDateY(target) - 6`, `x1/x2 = getX(...)` and control points
offset by `handleOffset = max(50, |y2 - y1| * 0.4)`. -/
def renderLink (events visibleEvents : List EventData)
    (zoom width cardWidth : ℚ) (cardHeights : String → Option ℚ)
    (ev : EventData) (link : LinkData) : Option Bezier :=
  if ¬ isVisible visibleEvents link.targetId then none
  else
    match events.find? (fun e => e.id == link.targetId) with
    | none => none
    | some target =>
      if width = 0 then none
      else
        let sourceHeight := jsOrFifty (cardHeights ev.id)
        let y1 := getDateY ev.date zoom + sourceHeight
        let y2 := getDateY target.date zoom - 6
        let x1 := getX width cardWidth ev.xOffset
        let x2 := getX width cardWidth target.xOffset
        let distY := |y2 - y1|
        let handleOffset := max 50 (distY * 0.4)
        let cp1y := y1 + handleOffset
        let cp2y := y2 - handleOffset
        some ⟨(x1, y1), (x1, cp1y), (x2, cp2y), (x2, y2)⟩

/-- A JSON value, the result of `JSON.parse` (objects as ordered field
lists). -/
inductive Json where
  | null
  | bool (b : Bool)
  | num (q : ℚ)
  | str (s : String)
  | arr (items : List Json)
  | obj (fields : List (String × Json))
deriving Repr

/-- Whether a JSON value is an array (`Array.isArray`). -/
def Json.isArr : Json → Bool
  | .arr _ => true
  | _ => false

/-- A document-format link record (spec section 6 shape). -/
structure RawLink where
  targetId : String
  color : String
deriving DecidableEq, Repr

/-- A document-format event record: the persisted JSON shape, in which
`url`, `xOffset` and `borderColor` may be absent and `date` and
`category` are the literal strings of the file. -/
structure RawEvent where
  id : String
  title : String
  description : String
  date : String
  category : String
  url : Option String
  links : List RawLink
  xOffset : Option ℚ
  borderColor : Option String
deriving DecidableEq, Repr

/-- The per-item defaulting spread used identically by the initial
load, `handleImport` and `handleResetToOfficial`:
`{...item, xOffset: item.xOffset ?? 50, borderColor: item.borderColor ?? 'default'}`. -/
def fixItem (e : RawEvent) : RawEvent :=
  { e with xOffset := some (e.xOffset.getD 50)
           borderColor := some (e.borderColor.getD "default") }

/-- JSON encoding of a link as `JSON.stringify` produces it. -/
def encodeLink (l : RawLink) : Json :=
  Json.obj [("targetId", Json.str l.targetId), ("color", Json.str l.color)]

/-- JSON encoding of an event as `JSON.stringify` produces it; absent
optional fields are omitted from the object. -/
def encodeEvent (e : RawEvent) : Json :=
  Json.obj (
    [("id", Json.str e.id), ("title", Json.str e.title),
     ("description", Json.str e.description), ("date", Json.str e.date),
     ("category", Json.str e.category)]
    ++ (match e.url with
        | some u => [("url", Json.str u)]
        | none => [])
    ++ [("links", Json.arr (e.links.map encodeLink))]
    ++ (match e.xOffset with
        | some x => [("xOffset", Json.num x)]
        | none => [])
    ++ (match e.borderColor with
        | some b => [("borderColor", Json.str b)]
        | none => []))

/-- Handler `handleExport`: `JSON.stringify(events)` — the document is the
JSON array of the encoded events. -/
def handleExport (events : List RawEvent) : Json :=
  Json.arr (events.map encodeEvent)

/-- JavaScript property access `obj[key]`: the value of the first
field with the given name, if any. -/
def getField : List (String × Json) → String → Option Json
  | [], _ => none
  | (k, v) :: rest, key => if k == key then some v else getField rest key

/-- View a JSON value as a string. -/
def asStr : Json → Option String
  | .str s => some s
  | _ => none

/-- View a JSON value as a number. -/
def asNum : Json → Option ℚ
  | .num q => some q
  | _ => none

/-- View a JSON value as an array's item list. -/
def asArr : Json → Option (List Json)
  | .arr items => some items
  | _ => none

/-- Read a link record out of a parsed JSON object. -/
def decodeLink (j : Json) : Option RawLink :=
  match j with
  | .obj fs =>
    match (getField fs "targetId").bind asStr, (getField fs "color").bind asStr with
    | some t, some c => some { targetId := t, color := c }
    | _, _ => none
  | _ => none

/-- Read a list of link records out of parsed JSON items. -/
def decodeLinks : List Json → Option (List RawLink)
  | [] => some []
  | j :: rest =>
    match decodeLink j, decodeLinks rest with
    | some l, some ls => some (l :: ls)
    | _, _ => none

/-- Read an event record (the spec section 6 shape) out of a parsed
JSON object. -/
def decodeEvent (j : Json) : Option RawEvent :=
  match j with
  | .obj fs =>
    match (getField fs "id").bind asStr, (getField fs "title").bind asStr,
          (getField fs "description").bind asStr, (getField fs "date").bind asStr,
          (getField fs "category").bind asStr,
          ((getField fs "links").bind asArr).bind decodeLinks with
    | some i, some t, some d, some dt, some c, some ls =>
      some { id := i, title := t, description := d, date := dt, category := c
             url := (getField fs "url").bind asStr
             links := ls
             xOffset := (getField fs "xOffset").bind asNum
             borderColor := (getField fs "borderColor").bind asStr }
    | _, _, _, _, _, _ => none
  | _ => none

/-- Read a whole document out of the items of a parsed JSON array. -/
def decodeItems : List Json → Option (List RawEvent)
  | [] => some []
  | j :: rest =>
    match decodeEvent j, decodeItems rest with
    | some e, some es => some (e :: es)
    | _, _ => none

/-- Handler `handleImport`: the argument is the outcome of `JSON.parse` on the
selected file (`none` when parsing threw).  An unparseable file alerts
`Failed to parse JSON`; a parsed value that is not an array alerts
`Invalid JSON format`; both leave the event list unchanged.  An array
is decoded and defaulted per item with `fixItem`.  (Array items that
do not carry the document shape of spec section 6 are outside this
embedding's domain and are modelled as leaving the document
unchanged.)  The result pairs the new event list with the alert
message, if one was shown. -/
def handleImport (parsed : Option Json) (events : List RawEvent) :
    List RawEvent × Option String :=
  match parsed with
  | none => (events, some "Failed to parse JSON")
  | some j =>
    match j with
    | .arr items =>
      match decodeItems items with
      | some rawItems => (rawItems.map fixItem, none)
      | none => (events, none)
    | _ => (events, some "Invalid JSON format")

/-- The slice of application state that the localStorage backup effect
touches: the `loading` flag, the event list, and the
`timeline-data` cache slot (`none` when the slot is absent). -/
structure CacheState where
  loading : Bool
  events : List RawEvent
  cache : Option Json
deriving Repr

/-- The backup effect on `[events, loading]`:
`if (!loading && events.length > 0) localStorage.setItem('timeline-data', JSON.stringify(events))`. -/
def backupEffect (s : CacheState) : CacheState :=
  if s.loading = false ∧ 0 < s.events.length then
    { s with cache := some (handleExport s.events) }
  else s

/-- A post-load document change.  `mutate f` covers every handler that
only calls `setEvents` (add, edit, delete, drag commit, import,
restore-from-cache); `resetToOfficial` additionally removes the cache
slot (`localStorage.removeItem('timeline-data')`).  In either case the
backup effect runs after the state update. -/
inductive DocAction where
  | mutate (f : List RawEvent → List RawEvent)
  | resetToOfficial (newEvents : List RawEvent)

/-- One document change followed by the backup effect. -/
def stepDoc (s : CacheState) : DocAction → CacheState
  | .mutate f => backupEffect { s with events := f s.events }
  | .resetToOfficial es => backupEffect { s with events := es, cache := none }

/-- A sequence of post-load document changes. -/
def runDoc (s : CacheState) (acts : List DocAction) : CacheState :=
  acts.foldl stepDoc s

end RedZone

namespace RedZone

/-- C2 helper: 2008-01-01T00:00:00Z in milliseconds. -/
def jan2008 : ℤ := 1199145600000

/-- C2 helper: 2008-06-01T00:00:00Z in milliseconds. -/
def jun2008 : ℤ := 1212278400000

/-- C2 counterexample: two distinct dates before the epoch start and
zoom 1 > 0 map to the same pixel (both clamp to the header offset), so
the strict-inequality part of the claim fails. -/
theorem getDateY_strict_cex :
    jan2008 < jun2008 ∧ (0 : ℚ) < 1 ∧ getDateY jan2008 1 = getDateY jun2008 1 := by
  refine ⟨by decide, by norm_num, ?_⟩
  show max 0 (((1199145600000 : ℚ) - 1230768000000) / 86400000 * 1) + 60
      = max 0 (((1212278400000 : ℚ) - 1230768000000) / 86400000 * 1) + 60
  norm_num

/-- C2 (amended): for `d1 < d2` and zoom `z > 0`, `getDateY` is
monotone (`≤`); the inequality is strict whenever the later date lies
after the epoch start. -/
theorem getDateY_monotone (d1 d2 : ℤ) (z : ℚ) (h : d1 < d2) (hz : 0 < z) :
    getDateY d1 z ≤ getDateY d2 z ∧
      (START_DATE < d2 → getDateY d1 z < getDateY d2 z) := by
  have hms : (0 : ℚ) < msPerDay := by norm_num [msPerDay]
  have hd : ((d1 : ℚ) - (START_DATE : ℚ)) / msPerDay
      < ((d2 : ℚ) - (START_DATE : ℚ)) / msPerDay := by
    apply div_lt_div_of_pos_right _ hms
    have : (d1 : ℚ) < (d2 : ℚ) := by exact_mod_cast h
    linarith
  have hmul : ((d1 : ℚ) - (START_DATE : ℚ)) / msPerDay * z
      < ((d2 : ℚ) - (START_DATE : ℚ)) / msPerDay * z :=
    mul_lt_mul_of_pos_right hd hz
  constructor
  · unfold getDateY
    have : max 0 (((d1 : ℚ) - (START_DATE : ℚ)) / msPerDay * z)
        ≤ max 0 (((d2 : ℚ) - (START_DATE : ℚ)) / msPerDay * z) :=
      max_le_max le_rfl (le_of_lt hmul)
    simpa using this
  · intro h2
    have h2q : (START_DATE : ℚ) < (d2 : ℚ) := by exact_mod_cast h2
    have hpos : 0 < ((d2 : ℚ) - (START_DATE : ℚ)) / msPerDay :=
      div_pos (by linarith) hms
    have hpz : 0 < ((d2 : ℚ) - (START_DATE : ℚ)) / msPerDay * z :=
      mul_pos hpos hz
    unfold getDateY
    have hlt : max 0 (((d1 : ℚ) - (START_DATE : ℚ)) / msPerDay * z)
        < ((d2 : ℚ) - (START_DATE : ℚ)) / msPerDay * z :=
      max_lt hpz hmul
    have heq : max 0 (((d2 : ℚ) - (START_DATE : ℚ)) / msPerDay * z)
        = ((d2 : ℚ) - (START_DATE : ℚ)) / msPerDay * z :=
      max_eq_right (le_of_lt hpz)
    simp only []
    rw [heq] at *
    linarith [hlt]

/-- C2 witness: the amended monotonicity theorem applied at the
concrete dates 2008-01-01 < 2009-06-01 with zoom 1. -/
theorem getDateY_monotone_witness :
    getDateY jan2008 1 ≤ getDateY 1243814400000 1 ∧
      (START_DATE < 1243814400000 → getDateY jan2008 1 < getDateY 1243814400000 1) :=
  getDateY_monotone jan2008 1243814400000 1 (by decide) (by norm_num)

/-- C3: for every date and every positive zoom, `getDateY` equals
`max(0, daysBetween(date, epochStart)) * zoom + headerHeight`; the
result is never below the header offset, and a date before the epoch
start maps to exactly the header offset. -/
theorem getDateY_spec (d : ℤ) (z : ℚ) (hz : 0 < z) :
    getDateY d z = max 0 (((d : ℚ) - (START_DATE : ℚ)) / msPerDay) * z + HEADER_HEIGHT ∧
      HEADER_HEIGHT ≤ getDateY d z ∧
      (d < START_DATE → getDateY d z = HEADER_HEIGHT) := by
  have hz0 : (0 : ℚ) ≤ z := le_of_lt hz
  refine ⟨?_, ?_, ?_⟩
  · unfold getDateY
    rw [max_mul_of_nonneg _ _ hz0, zero_mul]
  · unfold getDateY
    have : (0 : ℚ) ≤ max 0 (((d : ℚ) - (START_DATE : ℚ)) / msPerDay * z) := le_max_left _ _
    linarith
  · intro hd
    have hdq : (d : ℚ) < (START_DATE : ℚ) := by exact_mod_cast hd
    have hneg : ((d : ℚ) - (START_DATE : ℚ)) / msPerDay * z ≤ 0 := by
      apply mul_nonpos_of_nonpos_of_nonneg _ hz0
      apply div_nonpos_of_nonpos_of_nonneg (by linarith)
      norm_num [msPerDay]
    simp only [getDateY]
    rw [max_eq_left hneg, zero_add]

/-- C3 witness: the specification applied to the date 2008-01-01 (a
date before the epoch start) at zoom 2. -/
theorem getDateY_spec_witness :
    getDateY jan2008 2 = max 0 (((jan2008 : ℚ) - (START_DATE : ℚ)) / msPerDay) * 2 + HEADER_HEIGHT ∧
      HEADER_HEIGHT ≤ getDateY jan2008 2 ∧
      (jan2008 < START_DATE → getDateY jan2008 2 = HEADER_HEIGHT) :=
  getDateY_spec jan2008 2 (by norm_num)

/-- C5: for a measured container, `getX` returns
`(width - cardWidth) * (xOffset / 100) + cardWidth / 2`, the pixel of
the card's center: at 0% the card's left edge (`center - cardWidth/2`)
sits at the container's left edge 0, at 100% the card's right edge
(`center + cardWidth/2`) sits at the container's right edge `width`;
an unmeasured container (`width = 0`) yields the sentinel 0. -/
theorem getX_spec (width cardWidth p : ℚ) (h : width ≠ 0) :
    getX width cardWidth p = (width - cardWidth) * (p / 100) + cardWidth / 2 ∧
      getX width cardWidth 0 - cardWidth / 2 = 0 ∧
      getX width cardWidth 100 + cardWidth / 2 = width ∧
      getX 0 cardWidth p = 0 := by
  refine ⟨?_, ?_, ?_, ?_⟩
  · simp only [getX, if_neg h]
  · simp only [getX, if_neg h]; ring
  · simp only [getX, if_neg h]; ring
  · simp [getX]

/-- C5 witness: `getX` at a 400px container with a 240px card. -/
theorem getX_spec_witness :
    getX 400 240 30 = (400 - 240) * (30 / 100) + 240 / 2 ∧
      getX 400 240 0 - 240 / 2 = 0 ∧
      getX 400 240 100 + 240 / 2 = 400 ∧
      getX 0 240 30 = 0 :=
  getX_spec 400 240 30 (by norm_num)

/-- C9 counterexample: with a 400px container and 240px card, the
out-of-range offset 150 renders at `getX = 360` / `left = 240`,
different from the position of the nearest in-range offset 100
(`getX = 280` / `left = 160`): the rendering code does not clamp. -/
theorem getX_unclamped_cex :
    getX 400 240 150 = 360 ∧ getX 400 240 100 = 280 ∧
      cardLeft 400 240 150 = 240 ∧ cardLeft 400 240 100 = 160 ∧
      getX 400 240 150 ≠ getX 400 240 100 := by
  refine ⟨?_, ?_, ?_, ?_, ?_⟩ <;> norm_num [getX, cardLeft]

/-- C9 (amended): for a measured container, the rendering code does
not clamp an out-of-range offset — `getX` and the per-card left style
apply the unclamped linear mapping to it (totally, so rendering cannot
throw), and, when the card is narrower than the container, an offset
below 0 renders strictly before the 0% position and an offset above
100 strictly beyond the 100% position; in particular the rendered
position differs from that of the nearest in-range offset
`min 100 (max 0 p)`. -/
theorem render_no_clamp (w c p : ℚ) (hw : w ≠ 0) (hc : c < w)
    (hp : p < 0 ∨ 100 < p) :
    getX w c p = (w - c) * (p / 100) + c / 2 ∧
      cardLeft w c p = (w - c) * (p / 100) ∧
      getX w c p ≠ getX w c (min 100 (max 0 p)) ∧
      (p < 0 → getX w c p < getX w c 0) ∧
      (100 < p → getX w c 100 < getX w c p) := by
  have hform : ∀ q : ℚ, getX w c q = (w - c) * (q / 100) + c / 2 := by
    intro q
    simp only [getX, if_neg hw]
  have hwc : (0 : ℚ) < w - c := by linarith
  have hlow : p < 0 → getX w c p < getX w c 0 := by
    intro h0
    rw [hform p, hform 0]
    have : (w - c) * (p / 100) < (w - c) * (0 / 100) := by
      apply mul_lt_mul_of_pos_left _ hwc
      apply div_lt_div_of_pos_right h0
      norm_num
    linarith
  have hhigh : 100 < p → getX w c 100 < getX w c p := by
    intro h100
    rw [hform p, hform 100]
    have : (w - c) * (100 / 100) < (w - c) * (p / 100) := by
      apply mul_lt_mul_of_pos_left _ hwc
      apply div_lt_div_of_pos_right h100
      norm_num
    linarith
  refine ⟨hform p, rfl, ?_, hlow, hhigh⟩
  rcases hp with h0 | h100
  · have hmin : min 100 (max 0 p) = (0 : ℚ) := by
      rw [max_eq_left (le_of_lt h0)]
      norm_num
    rw [hmin]
    exact ne_of_lt (hlow h0)
  · have hmin : min 100 (max 0 p) = (100 : ℚ) := by
      rw [max_eq_right (by linarith : (0:ℚ) ≤ p)]
      exact min_eq_left (le_of_lt h100)
    rw [hmin]
    exact ne_of_gt (hhigh h100)

/-- C9 witness: the amended no-clamp theorem at container 400, card
240, below-range offset -50. -/
theorem render_no_clamp_witness :
    getX 400 240 (-50) = (400 - 240) * ((-50) / 100) + 240 / 2 ∧
      cardLeft 400 240 (-50) = (400 - 240) * ((-50) / 100) ∧
      getX 400 240 (-50) ≠ getX 400 240 (min 100 (max 0 (-50))) ∧
      ((-50 : ℚ) < 0 → getX 400 240 (-50) < getX 400 240 0) ∧
      ((100 : ℚ) < -50 → getX 400 240 100 < getX 400 240 (-50)) :=
  render_no_clamp 400 240 (-50) (by norm_num) (by norm_num) (Or.inl (by norm_num))

/-- C1 counterexample: in a drag session whose travel distance is
negative (container 160px narrower than the 240px card), a pointer
move is a no-op (display stays at 50) while the claimed clamp formula
yields 0 — the per-move formula does not hold for non-positive travel
distances. -/
theorem drag_move_formula_cex :
    (handleMove (handleStart 50 0 160 240) 100).currentX = 50 ∧
      min 100 (max 0 (50 + (100 - 0) / (160 - 240) * 100)) = (0 : ℚ) ∧
      (50 : ℚ) ≠ 0 := by
  refine ⟨?_, ?_, by norm_num⟩
  · simp only [handleMove, handleStart]
    norm_num
  · norm_num

/-- C1 (amended): while dragging with a positive travel distance,
every pointer move sets the displayed offset to
`clamp(startOffset + (clientX - startX) / travel * 100, 0, 100)`;
with travel distance ≤ 0 a pointer move is a no-op; and the offset
committed on release is always within [0, 100], regardless of the
moves and of the starting offset. -/
theorem drag_session_spec (s : DragState) (cX : ℚ) (h : 0 < s.colWidth)
    (xOffset clientX parentWidth cardWidth : ℚ) (moves : List ℚ) :
    (handleMove s cX).currentX
        = min 100 (max 0 (s.startOffset + (cX - s.startX) / s.colWidth * 100)) ∧
      (∀ s2 : DragState, ∀ c : ℚ, s2.colWidth ≤ 0 → handleMove s2 c = s2) ∧
      0 ≤ dragSession xOffset clientX parentWidth cardWidth moves ∧
      dragSession xOffset clientX parentWidth cardWidth moves ≤ 100 := by
  refine ⟨?_, ?_, ?_, ?_⟩
  · simp only [handleMove, if_neg (not_le.mpr h)]
  · intro s2 c hc
    simp only [handleMove, if_pos hc]
  · unfold dragSession handleDragEnd
    exact le_max_left _ _
  · unfold dragSession handleDragEnd
    exact max_le (by norm_num) (min_le_left _ _)

/-- C4: whenever a connector is emitted (target visible and found,
width measured, source height measured and non-zero), it is exactly
the cubic Bézier start `(x1, y1)`, control1 `(x1, y1 + h)`, control2
`(x2, y2 - h)`, end `(x2, y2)` with `y1` the source's date pixel plus
its measured card height, `y2` the target's date pixel minus 6,
`x1`/`x2` the `getX` centers, and `h = max(50, |y2 - y1| * 0.4)`. -/
theorem renderLink_spec (events visibleEvents : List EventData)
    (zoom width cardWidth : ℚ) (cardHeights : String → Option ℚ)
    (ev target : EventData) (link : LinkData) (hgt : ℚ)
    (hvis : isVisible visibleEvents link.targetId = true)
    (hfind : events.find? (fun e => e.id == link.targetId) = some target)
    (hw : width ≠ 0)
    (hh : cardHeights ev.id = some hgt) (hh0 : hgt ≠ 0) :
    renderLink events visibleEvents zoom width cardWidth cardHeights ev link =
      some { p0 := (getX width cardWidth ev.xOffset, getDateY ev.date zoom + hgt)
             p1 := (getX width cardWidth ev.xOffset,
                    getDateY ev.date zoom + hgt
                      + max 50 (|getDateY target.date zoom - 6
                          - (getDateY ev.date zoom + hgt)| * 0.4))
             p2 := (getX width cardWidth target.xOffset,
                    getDateY target.date zoom - 6
                      - max 50 (|getDateY target.date zoom - 6
                          - (getDateY ev.date zoom + hgt)| * 0.4))
             p3 := (getX width cardWidth target.xOffset, getDateY target.date zoom - 6) } := by
  simp only [renderLink, hvis, hfind, if_neg hw, hh, jsOrFifty, if_neg hh0,
    Bool.not_true, Bool.false_eq_true, not_true, if_false]

/-- C4 helper: a concrete target event seven days after the epoch
start. -/
def targetEv : EventData :=
  { id := "b", title := "B", description := "", date := 1231372800000
    category := Category.technique, url := none, links := []
    xOffset := 80, borderColor := none }

/-- C4 helper: a concrete source event at the epoch start linking to
`targetEv`. -/
def sourceEv : EventData :=
  { id := "a", title := "A", description := "", date := 1230768000000
    category := Category.technique, url := none
    links := [{ targetId := "b", color := "#888888" }]
    xOffset := 20, borderColor := none }

/-- C4 witness: the connector shape theorem applied to the concrete
two-event document with zoom 1, container 400, card 240, measured
source height 100. -/
theorem renderLink_spec_witness :
    renderLink [sourceEv, targetEv] [sourceEv, targetEv] 1 400 240
        (fun _ => some 100) sourceEv { targetId := "b", color := "#888888" } =
      some { p0 := (getX 400 240 sourceEv.xOffset, getDateY sourceEv.date 1 + 100)
             p1 := (getX 400 240 sourceEv.xOffset,
                    getDateY sourceEv.date 1 + 100
                      + max 50 (|getDateY targetEv.date 1 - 6
                          - (getDateY sourceEv.date 1 + 100)| * 0.4))
             p2 := (getX 400 240 targetEv.xOffset,
                    getDateY targetEv.date 1 - 6
                      - max 50 (|getDateY targetEv.date 1 - 6
                          - (getDateY sourceEv.date 1 + 100)| * 0.4))
             p3 := (getX 400 240 targetEv.xOffset, getDateY targetEv.date 1 - 6) } :=
  renderLink_spec [sourceEv, targetEv] [sourceEv, targetEv] 1 400 240
    (fun _ => some 100) sourceEv targetEv { targetId := "b", color := "#888888" } 100
    (by decide) (by decide) (by norm_num) rfl (by norm_num)

/-- C8: a link whose target id matches no event in the document, or no
event among the currently visible ones, produces no connector —
`renderLink` (a total function, so rendering cannot throw) returns
`none`. -/
theorem dangling_link_skip (events visibleEvents : List EventData)
    (zoom width cardWidth : ℚ) (cardHeights : String → Option ℚ)
    (ev : EventData) (link : LinkData)
    (h : (∀ e ∈ events, e.id ≠ link.targetId) ∨
         (∀ e ∈ visibleEvents, e.id ≠ link.targetId)) :
    renderLink events visibleEvents zoom width cardWidth cardHeights ev link = none := by
  rcases h with he | hv
  · have hfind : events.find? (fun e => e.id == link.targetId) = none := by
      rw [List.find?_eq_none]
      intro e hm
      simp only [beq_iff_eq]
      exact he e hm
    by_cases hv2 : isVisible visibleEvents link.targetId
    · simp [renderLink, hv2, hfind]
    · simp [renderLink, hv2]
  · have hvis : isVisible visibleEvents link.targetId = false := by
      simp only [isVisible, List.any_eq_false]
      intro e hm
      simp only [beq_iff_eq]
      exact hv e hm
    simp [renderLink, hvis]

/-- C8 witness: the dangling-link theorem applied to a document in
which no event carries the link's target id. -/
theorem dangling_link_skip_witness :
    renderLink [sourceEv] [sourceEv] 1 400 240 (fun _ => some 100) sourceEv
        { targetId := "zzz", color := "#888888" } = none :=
  dangling_link_skip [sourceEv] [sourceEv] 1 400 240 (fun _ => some 100) sourceEv
    { targetId := "zzz", color := "#888888" } (Or.inl (by decide))

/-- Decoding inverts encoding on a single link record. -/
theorem decodeLink_encodeLink (l : RawLink) : decodeLink (encodeLink l) = some l := by
  simp [decodeLink, encodeLink, getField, asStr]

/-- Decoding inverts encoding on a list of link records. -/
theorem decodeLinks_map (ls : List RawLink) :
    decodeLinks (ls.map encodeLink) = some ls := by
  induction ls with
  | nil => rfl
  | cons l rest ih => simp [decodeLinks, decodeLink_encodeLink, ih]

/-- Decoding inverts encoding on a single event record, whichever of
the optional fields are present. -/
theorem decodeEvent_encodeEvent (e : RawEvent) : decodeEvent (encodeEvent e) = some e := by
  obtain ⟨i, t, d, dt, c, url, links, xo, bc⟩ := e
  cases url <;> cases xo <;> cases bc <;>
    simp [decodeEvent, encodeEvent, getField, asStr, asNum, asArr, decodeLinks_map]

/-- Decoding inverts encoding on a whole document. -/
theorem decodeItems_map (D : List RawEvent) :
    decodeItems (D.map encodeEvent) = some D := by
  induction D with
  | nil => rfl
  | cons e rest ih => simp [decodeItems, decodeEvent_encodeEvent, ih]

/-- C6: importing an exported document yields exactly the document
with the defaulting rules (`xOffset := 50`, `borderColor := "default"`
when absent) applied to it, with no error alert; and defaulting is
idempotent. -/
theorem import_export_roundtrip (D events : List RawEvent) :
    handleImport (some (handleExport D)) events = (D.map fixItem, none) ∧
      ∀ e : RawEvent, fixItem (fixItem e) = fixItem e := by
  constructor
  · simp [handleImport, handleExport, decodeItems_map]
  · intro e
    simp [fixItem]

/-- C7: an import whose file is unparseable, or whose parsed top-level
value is not an array, raises an alert and leaves the in-memory event
list exactly unchanged. -/
theorem import_rejects_nonarray (parsed : Option Json) (events : List RawEvent)
    (h : parsed = none ∨ ∃ j, parsed = some j ∧ Json.isArr j = false) :
    (handleImport parsed events).1 = events ∧
      ((handleImport parsed events).2).isSome = true := by
  rcases h with h | ⟨j, hj, harr⟩
  · subst h
    exact ⟨rfl, rfl⟩
  · subst hj
    cases j <;> simp_all [handleImport, Json.isArr]

/-- C7 witness: importing the JSON number 5 (a parseable non-array)
over a one-event document alerts and changes nothing. -/
theorem import_rejects_nonarray_witness :
    (handleImport (some (Json.num 5))
        [{ id := "a", title := "", description := "", date := "2020-01-01"
           category := "other", url := none, links := [], xOffset := some 50
           borderColor := some "default" }]).1 =
      [{ id := "a", title := "", description := "", date := "2020-01-01"
         category := "other", url := none, links := [], xOffset := some 50
         borderColor := some "default" }] ∧
      ((handleImport (some (Json.num 5))
          [{ id := "a", title := "", description := "", date := "2020-01-01"
             category := "other", url := none, links := [], xOffset := some 50
             borderColor := some "default" }]).2).isSome = true :=
  import_rejects_nonarray (some (Json.num 5)) _ (Or.inr ⟨Json.num 5, rfl, rfl⟩)

/-- C10 helper: a concrete document event. -/
def cexEvent : RawEvent :=
  { id := "a", title := "T", description := "", date := "2020-01-01"
    category := "other", url := none, links := [], xOffset := some 50
    borderColor := some "default" }

/-- C10 counterexample: starting from a loaded state holding one
event, deleting that event (a `mutate` to the empty list) leaves the
cache at the serialization of the old one-event list, not at the
serialization of the now-empty current list — the backup effect skips
empty documents. -/
theorem cache_stale_cex :
    (stepDoc (backupEffect ⟨false, [cexEvent], none⟩) (.mutate (fun _ => []))).events = [] ∧
      (stepDoc (backupEffect ⟨false, [cexEvent], none⟩) (.mutate (fun _ => []))).cache
        = some (handleExport [cexEvent]) ∧
      handleExport (stepDoc (backupEffect ⟨false, [cexEvent], none⟩)
          (.mutate (fun _ => []))).events = Json.arr [] ∧
      some (handleExport [cexEvent]) ≠ some (Json.arr []) := by
  refine ⟨rfl, ?_, ?_, ?_⟩
  · simp [stepDoc, backupEffect, handleExport]
  · simp [stepDoc, backupEffect, handleExport]
  · simp [handleExport, cexEvent, encodeEvent]

/-- The backup effect never touches the loading flag. -/
theorem backupEffect_loading (s : CacheState) : (backupEffect s).loading = s.loading := by
  unfold backupEffect
  split <;> rfl

/-- The backup effect never touches the event list. -/
theorem backupEffect_events (s : CacheState) : (backupEffect s).events = s.events := by
  unfold backupEffect
  split <;> rfl

/-- After the backup effect runs post-load on a non-empty event list,
the cache holds the serialization of that list. -/
theorem backupEffect_inv (s : CacheState) (hl : s.loading = false)
    (h : (backupEffect s).events ≠ []) :
    (backupEffect s).cache = some (handleExport (backupEffect s).events) := by
  rw [backupEffect_events] at h
  unfold backupEffect
  split
  · rfl
  · rename_i hcond
    exact absurd ⟨hl, List.length_pos.mpr h⟩ hcond

/-- Every single post-load document change preserves the loading flag
and re-establishes the cache invariant for non-empty documents. -/
theorem stepDoc_inv (s : CacheState) (a : DocAction) (hl : s.loading = false) :
    (stepDoc s a).loading = false ∧
      ((stepDoc s a).events ≠ [] →
        (stepDoc s a).cache = some (handleExport (stepDoc s a).events)) := by
  cases a with
  | mutate f =>
    refine ⟨?_, fun hne => backupEffect_inv _ hl hne⟩
    show (backupEffect _).loading = false
    rw [backupEffect_loading]
    exact hl
  | resetToOfficial es =>
    refine ⟨?_, fun hne => backupEffect_inv _ hl hne⟩
    show (backupEffect _).loading = false
    rw [backupEffect_loading]
    exact hl

/-- C10 (amended): the backup effect is skipped while the event list
is empty, and otherwise rewrites the cache after every change; hence
every post-load state reachable by document changes whose event list
is non-empty has the cache equal to the serialization of the current
event list. -/
theorem cache_invariant (es0 : List RawEvent) (c0 : Option Json) (acts : List DocAction)
    (h : (runDoc (backupEffect ⟨false, es0, c0⟩) acts).events ≠ []) :
    (runDoc (backupEffect ⟨false, es0, c0⟩) acts).cache
      = some (handleExport (runDoc (backupEffect ⟨false, es0, c0⟩) acts).events) := by
  suffices H : ∀ (acts : List DocAction) (s : CacheState), s.loading = false →
      (s.events ≠ [] → s.cache = some (handleExport s.events)) →
      (runDoc s acts).loading = false ∧
        ((runDoc s acts).events ≠ [] →
          (runDoc s acts).cache = some (handleExport (runDoc s acts).events)) by
    exact (H acts (backupEffect ⟨false, es0, c0⟩)
      (by rw [backupEffect_loading]) (fun hne => backupEffect_inv _ rfl hne)).2 h
  intro acts
  induction acts with
  | nil => intro s hl hinv; exact ⟨hl, hinv⟩
  | cons a rest ih =>
    intro s hl hinv
    have hstep := stepDoc_inv s a hl
    exact ih (stepDoc s a) hstep.1 hstep.2

/-- C10 witness: the cache invariant applied to the concrete trace
load [cexEvent]; delete everything; add cexEvent back. -/
theorem cache_invariant_witness :
    (runDoc (backupEffect ⟨false, [cexEvent], none⟩)
        [.mutate (fun _ => []), .mutate (fun _ => [cexEvent])]).cache
      = some (handleExport (runDoc (backupEffect ⟨false, [cexEvent], none⟩)
          [.mutate (fun _ => []), .mutate (fun _ => [cexEvent])]).events) :=
  cache_invariant [cexEvent] none [.mutate (fun _ => []), .mutate (fun _ => [cexEvent])]
    (by simp [runDoc, stepDoc, backupEffect])

/-- C1 witness: the amended drag theorem at a concrete session —
positive travel 160 = 400 - 240, one move of +80px from offset 50. -/
theorem drag_session_spec_witness :
    (handleMove (handleStart 50 0 400 240) 80).currentX
        = min 100 (max 0 ((handleStart 50 0 400 240).startOffset
            + (80 - (handleStart 50 0 400 240).startX)
              / (handleStart 50 0 400 240).colWidth * 100)) ∧
      (∀ s2 : DragState, ∀ c : ℚ, s2.colWidth ≤ 0 → handleMove s2 c = s2) ∧
      0 ≤ dragSession 50 0 400 240 [80] ∧
      dragSession 50 0 400 240 [80] ≤ 100 :=
  drag_session_spec (handleStart 50 0 400 240) 80 (by norm_num [handleStart]) 50 0 400 240 [80]

end RedZone
